import Mathlib

/-!
Verification of the LinkedIn lead-generation pipeline (`src/main.py` and the
scraper components it drives). Pure Lean embedding of the configuration
loading, CLI handling, the pre-browse phase of `main`, the try/except/finally
block around the browsing phase, and (modelled from the spec, since the
scraper module itself is not part of the provided sources) the Search
Collector and the Hiring Classifier.
-/

namespace LinkedinLeads

/-! ## Configuration (`load_config` and the CLI overrides in `main`) -/

/-- The configuration dictionary of `main.py`: the keys of `default_config`
in `load_config`. -/
structure Config where
  search_keywords : List String
  job_titles : List String
  max_results : Int
  delay_between_requests_seconds : Int
  headless : Bool
deriving Repr, DecidableEq

/-- The `default_config` dictionary in `load_config` (src/main.py). -/
def default_config : Config :=
  { search_keywords := ["hiring", "we are hiring", "looking for", "job opening"]
    job_titles := ["mobile developer", "app developer", "iOS developer", "android developer"]
    max_results := 50
    delay_between_requests_seconds := 2
    headless := false }

/-- Contents of `config.json` when present: a partial dictionary whose keys
override `default_config` via `default_config.update(loaded)`. -/
structure FileConfig where
  search_keywords : Option (List String) := none
  job_titles : Option (List String) := none
  max_results : Option Int := none
  delay_between_requests_seconds : Option Int := none
  headless : Option Bool := none
deriving Repr, DecidableEq

/-- The function `load_config` of src/main.py: start from `default_config`
and, when `config.json` exists, update each key it provides. -/
def load_config (fc : Option FileConfig) : Config :=
  match fc with
  | none => default_config
  | some f =>
    { search_keywords := f.search_keywords.getD default_config.search_keywords
      job_titles := f.job_titles.getD default_config.job_titles
      max_results := f.max_results.getD default_config.max_results
      delay_between_requests_seconds :=
        f.delay_between_requests_seconds.getD default_config.delay_between_requests_seconds
      headless := f.headless.getD default_config.headless }

/-- The CLI override in `main`: `args.max_results` defaults to 50 (argparse
default), and `if args.max_results:` overrides the config value exactly when
the integer is truthy, i.e. non-zero. `cliMax = none` models an omitted
`--max-results` flag (argparse then supplies the default 50). -/
def applyCliMaxResults (c : Config) (cliMax : Option Int) : Config :=
  let argsMax := cliMax.getD 50
  if argsMax ≠ 0 then { c with max_results := argsMax } else c

/-- The effective `config["max_results"]` that `main` passes to the
Search Collector, as a function of `config.json` and the CLI flag. -/
def mainMaxResults (fc : Option FileConfig) (cliMax : Option Int) : Int :=
  (applyCliMaxResults (load_config fc) cliMax).max_results

/-! ## Default query construction (`main`, lines 99-104) -/

/-- The query determination in `main`: `search_query = args.search`, and
`if not search_query:` (so both `None` and the empty string fall through)
builds `f"{config['job_titles'][0]} {config['search_keywords'][0]}"`.
Indexing `[0]` on an empty list raises `IndexError`, modelled as `.error ()`. -/
def buildSearchQuery (cliSearch : Option String) (c : Config) : Except Unit String :=
  let sq := cliSearch.getD ""
  if sq.isEmpty then
    match c.job_titles with
    | [] => .error ()
    | job :: _ =>
      match c.search_keywords with
      | [] => .error ()
      | kw :: _ => .ok (job ++ " " ++ kw)
  else .ok sq

/-! ## Country profiles and credentials (`COUNTRIES`, `main` lines 117-123) -/

/-- A row of the `COUNTRIES` table of src/main.py (the fields the control
flow reads; geolocation/timezone/locale are pass-through launch parameters). -/
structure CountryProfile where
  name : String
  linkedin_subdomain : String
  session_dir : String
  email_env : String
  password_env : String
deriving Repr, DecidableEq

/-- The `india` entry of `COUNTRIES`. -/
def india : CountryProfile :=
  { name := "India", linkedin_subdomain := "in", session_dir := "browser_session_india",
    email_env := "LINKEDIN_EMAIL", password_env := "LINKEDIN_PASSWORD" }

/-- The `usa` entry of `COUNTRIES`. -/
def usa : CountryProfile :=
  { name := "United States", linkedin_subdomain := "www", session_dir := "browser_session_usa",
    email_env := "LINKEDIN_EMAIL_USA", password_env := "LINKEDIN_PASSWORD_USA" }

/-- Python truthiness of `os.getenv(...)`: `not value` holds when the
variable is unset (`None`) or set to the empty string. -/
def credMissing : Option String → Bool
  | none => true
  | some s => s.isEmpty

/-- Errors that can end the run before the browser is launched. -/
inductive PreBrowseError where
  | indexError
  | missingCredentials
deriving Repr, DecidableEq

/-- The phase of `main` before `with sync_playwright()`: in program order,
build the search query (lines 99-104, may raise `IndexError`), then read the
credentials for the selected country and `sys.exit(1)` when either is unset
or empty (lines 117-123). On success the query reaches the browsing phase. -/
def mainPreBrowse (fc : Option FileConfig) (cliSearch : Option String)
    (env : String → Option String) (profile : CountryProfile) :
    Except PreBrowseError String :=
  match buildSearchQuery cliSearch (load_config fc) with
  | .error _ => .error .indexError
  | .ok q =>
    if credMissing (env profile.email_env) || credMissing (env profile.password_env) then
      .error .missingCredentials
    else .ok q

/-! ## The browsing phase: the try/except/finally block of `main` -/

/-- Outcome of one pipeline step (`search_linkedin_posts` or
`scrape_linkedin_posts`): a returned value, a `KeyboardInterrupt`, or an
`Exception` (e.g. `AuthFailed`, `AuthChallengeRequired`, `ResourceLocked`). -/
inductive StepResult (α : Type) where
  | ok (a : α)
  | keyboardInterrupt
  | exc (msg : String)
deriving Repr, DecidableEq

/-- How control leaves the try block of `main`. `sysExit` is the
`sys.exit(1)` on an empty URL list: `SystemExit` derives from
`BaseException`, so `except Exception` does not catch it and it propagates
through `finally`. The two `except` handlers swallow what they catch. -/
inductive TryExit where
  | normal
  | sysExit (code : Nat)
  | caughtInterrupt
  | caughtException (msg : String)
deriving Repr, DecidableEq

/-- Observable outcome of the try/except/finally block: whether
`save_session(context)` ran, whether a failure message was printed, and how
control left the block. -/
structure TryResult where
  saveSessionCalled : Bool
  errorReported : Bool
  exit : TryExit
deriving Repr, DecidableEq

/-- The try/except/finally block of `main` (src/main.py lines 162-204):
run `search_linkedin_posts`; if the returned list is empty, print an error
and `sys.exit(1)`; otherwise run `scrape_linkedin_posts`, then
`save_session(context)`. `except KeyboardInterrupt` prints a warning and
returns normally; `except Exception` prints the error and traceback and
returns normally; `finally` closes the context in every case. -/
def runTryBlock (searchRes : StepResult (List String)) (scrapeRes : StepResult Unit) :
    TryResult :=
  match searchRes with
  | .keyboardInterrupt => { saveSessionCalled := false, errorReported := true, exit := .caughtInterrupt }
  | .exc m => { saveSessionCalled := false, errorReported := true, exit := .caughtException m }
  | .ok urls =>
    if urls.isEmpty then
      { saveSessionCalled := false, errorReported := true, exit := .sysExit 1 }
    else
      match scrapeRes with
      | .keyboardInterrupt => { saveSessionCalled := false, errorReported := true, exit := .caughtInterrupt }
      | .exc m => { saveSessionCalled := false, errorReported := true, exit := .caughtException m }
      | .ok _ => { saveSessionCalled := true, errorReported := false, exit := .normal }

/-- The process exit status determined by how the try block ended: a
propagating `SystemExit(1)` gives status 1; a caught-and-swallowed
exception or a normal completion lets `main` return, giving status 0. -/
def exitCodeOfTry : TryExit → Nat
  | .sysExit c => c
  | .normal => 0
  | .caughtInterrupt => 0
  | .caughtException _ => 0

/-- Observable outcome of a whole run of `main`. -/
structure MainRun where
  browserLaunched : Bool
  saveSessionCalled : Bool
  errorReported : Bool
  exitCode : Nat
deriving Repr, DecidableEq

/-- A whole run of `main`: the pre-browse phase either fails (an uncaught
`IndexError` or the credentials `sys.exit(1)`, both exiting the Python
process with status 1 and never launching a browser) or proceeds to launch
the persistent context and run the try block. -/
def runMain (fc : Option FileConfig) (cliSearch : Option String)
    (env : String → Option String) (profile : CountryProfile)
    (searchRes : StepResult (List String)) (scrapeRes : StepResult Unit) : MainRun :=
  match mainPreBrowse fc cliSearch env profile with
  | .error _ =>
    { browserLaunched := false, saveSessionCalled := false, errorReported := true, exitCode := 1 }
  | .ok _ =>
    let t := runTryBlock searchRes scrapeRes
    { browserLaunched := true, saveSessionCalled := t.saveSessionCalled,
      errorReported := t.errorReported, exitCode := exitCodeOfTry t.exit }

/-! ## Search Collector (modelled from the spec) -/

/-- Modelled from the spec: the scraper module `scraper/linkedin_scraper.py`
(`search_linkedin_posts`) is not among the provided sources. URL
canonicalization to "a stable URL form (strip tracking parameters)":
everything from the first `?` onward is dropped. -/
def canonicalize (url : String) : String :=
  String.mk (url.toList.takeWhile (fun c => c ≠ '?'))

/-- Modelled from the spec: one post-link element processed by the
Collector. The canonical URL is appended exactly when it is not already
present and the sequence is still below `maxResults`. -/
def addUrl (maxResults : Nat) (acc : List String) (u : String) : List String :=
  if maxResults ≤ acc.length then acc
  else if canonicalize u ∈ acc then acc
  else acc ++ [canonicalize u]

/-- Modelled from the spec: one extraction pass of the Collector over the
post-link elements currently rendered, appending "any not already present". -/
def collectPass (maxResults : Nat) (acc : List String) (urls : List String) : List String :=
  urls.foldl (addUrl maxResults) acc

theorem length_le_addUrl (N : Nat) (acc : List String) (u : String) :
    acc.length ≤ (addUrl N acc u).length := by
  unfold addUrl
  split
  · exact Nat.le_refl _
  · split
    · exact Nat.le_refl _
    · simp

theorem length_le_collectPass (N : Nat) (acc : List String) (urls : List String) :
    acc.length ≤ (collectPass N acc urls).length := by
  induction urls generalizing acc with
  | nil => simp [collectPass]
  | cons u rest ih =>
    have h1 : acc.length ≤ (addUrl N acc u).length := length_le_addUrl N acc u
    have h2 : (addUrl N acc u).length ≤ (collectPass N (addUrl N acc u) rest).length := ih _
    simpa [collectPass] using Nat.le_trans h1 h2

/-- Modelled from the spec: the collection loop of the Search Collector.
On each pass it extracts the currently rendered links (`pages i`),
canonicalizes and appends the new ones; it terminates when `maxResults` is
reached, and a pass that discovers nothing new counts toward the stagnation
guard, which stops the loop after two consecutive empty passes. Between
passes the page is scrolled and the configured delay elapses (invisible to
the URL-set semantics). -/
def collectFrom (pages : Nat → List String) (maxResults : Nat)
    (i : Nat) (acc : List String) (stagnation : Nat) : List String :=
  if h : maxResults ≤ acc.length then acc
  else
    if h2 : (collectPass maxResults acc (pages i)).length = acc.length then
      if stagnation + 1 ≥ 2 then acc
      else collectFrom pages maxResults (i + 1) acc (stagnation + 1)
    else
      collectFrom pages maxResults (i + 1) (collectPass maxResults acc (pages i)) 0
termination_by (maxResults - acc.length) * 2 + (1 - stagnation)
decreasing_by
  · omega
  · have hmono : acc.length ≤ (collectPass maxResults acc (pages i)).length :=
      length_le_collectPass maxResults acc (pages i)
    omega

/-- Modelled from the spec: `collect(page, query, max_results, delay)`
starts from an empty Candidate URL Set with a fresh stagnation counter. -/
def collect (pages : Nat → List String) (maxResults : Nat) : List String :=
  collectFrom pages maxResults 0 [] 0

/-- The concatenation of the first `k` extraction passes starting at pass
`i`: the discovery stream the running Collector has observed. -/
def flattenPages (pages : Nat → List String) (i k : Nat) : List String :=
  match k with
  | 0 => []
  | k + 1 => pages i ++ flattenPages pages (i + 1) k

/-- The first occurrence of each canonical URL in a discovery stream, in
discovery order, skipping those already `seen`. -/
def newFirstSeen (seen : List String) : List String → List String
  | [] => []
  | u :: rest =>
    if canonicalize u ∈ seen then newFirstSeen seen rest
    else canonicalize u :: newFirstSeen (seen ++ [canonicalize u]) rest

theorem collectPass_of_length_ge (N : Nat) (acc : List String) (l : List String)
    (h : N ≤ acc.length) : collectPass N acc l = acc := by
  induction l generalizing acc with
  | nil => simp [collectPass]
  | cons u rest ih =>
    have ha : addUrl N acc u = acc := by unfold addUrl; simp [h]
    have : collectPass N acc (u :: rest) = collectPass N (addUrl N acc u) rest := rfl
    rw [this, ha, ih acc h]

theorem addUrl_length_le (N : Nat) (acc : List String) (u : String)
    (h : acc.length ≤ N) : (addUrl N acc u).length ≤ N := by
  unfold addUrl
  split
  · exact h
  · split
    · exact h
    · simp only [List.length_append, List.length_cons, List.length_nil]
      omega

theorem collectPass_length_le (N : Nat) (acc : List String) (l : List String)
    (h : acc.length ≤ N) : (collectPass N acc l).length ≤ N := by
  induction l generalizing acc with
  | nil => simpa [collectPass] using h
  | cons u rest ih =>
    have : collectPass N acc (u :: rest) = collectPass N (addUrl N acc u) rest := rfl
    rw [this]
    exact ih _ (addUrl_length_le N acc u h)

theorem addUrl_nodup (N : Nat) (acc : List String) (u : String)
    (h : acc.Nodup) : (addUrl N acc u).Nodup := by
  unfold addUrl
  split
  · exact h
  · split
    · exact h
    · next hmem =>
      simp [List.nodup_append, h, hmem]

theorem collectPass_nodup (N : Nat) (acc : List String) (l : List String)
    (h : acc.Nodup) : (collectPass N acc l).Nodup := by
  induction l generalizing acc with
  | nil => simpa [collectPass] using h
  | cons u rest ih =>
    have : collectPass N acc (u :: rest) = collectPass N (addUrl N acc u) rest := rfl
    rw [this]
    exact ih _ (addUrl_nodup N acc u h)

theorem collectPass_eq_append (N : Nat) (acc : List String) (l : List String) :
    ∃ t, collectPass N acc l = acc ++ t := by
  induction l generalizing acc with
  | nil => exact ⟨[], by simp [collectPass]⟩
  | cons u rest ih =>
    have hstep : ∃ s, addUrl N acc u = acc ++ s := by
      unfold addUrl
      split
      · exact ⟨[], by simp⟩
      · split
        · exact ⟨[], by simp⟩
        · exact ⟨[canonicalize u], rfl⟩
    obtain ⟨s, hs⟩ := hstep
    obtain ⟨t, ht⟩ := ih (addUrl N acc u)
    have hc : collectPass N acc (u :: rest) = collectPass N (addUrl N acc u) rest := rfl
    exact ⟨s ++ t, by rw [hc, ht, hs, List.append_assoc]⟩

theorem collectPass_eq_of_length_eq (N : Nat) (acc : List String) (l : List String)
    (h : (collectPass N acc l).length = acc.length) : collectPass N acc l = acc := by
  obtain ⟨t, ht⟩ := collectPass_eq_append N acc l
  rw [ht] at h ⊢
  simp only [List.length_append] at h
  have : t.length = 0 := by omega
  simp [List.length_eq_zero.mp this]

theorem collectPass_append (N : Nat) (acc : List String) (l1 l2 : List String) :
    collectPass N acc (l1 ++ l2) = collectPass N (collectPass N acc l1) l2 := by
  simp [collectPass, List.foldl_append]

theorem flattenPages_nil (k : Nat) : ∀ j, flattenPages (fun _ => ([] : List String)) j k = [] := by
  induction k with
  | zero => intro j; rfl
  | succ k ih => intro j; simpa [flattenPages] using ih (j + 1)

theorem collectFrom_flatten (pages : Nat → List String) (N i : Nat)
    (acc : List String) (stag : Nat) :
    ∃ k, collectFrom pages N i acc stag = collectPass N acc (flattenPages pages i k) := by
  induction i, acc, stag using collectFrom.induct pages N with
  | case1 i acc stag h =>
    refine ⟨0, ?_⟩
    rw [collectFrom]
    simp [h, flattenPages, collectPass]
  | case2 i acc stag h h2 hstop =>
    refine ⟨0, ?_⟩
    rw [collectFrom]
    rw [dif_neg h, dif_pos h2, if_pos hstop]
    simp [flattenPages, collectPass]
  | case3 i acc stag h h2 hcont ih =>
    obtain ⟨k, hk⟩ := ih
    refine ⟨k + 1, ?_⟩
    rw [collectFrom]
    simp only [dif_neg h, dif_pos h2, if_neg hcont]
    rw [hk]
    have hpass : collectPass N acc (pages i) = acc := collectPass_eq_of_length_eq N acc (pages i) h2
    rw [show flattenPages pages i (k + 1) = pages i ++ flattenPages pages (i + 1) k from rfl]
    rw [collectPass_append, hpass]
  | case4 i acc stag h h2 ih =>
    obtain ⟨k, hk⟩ := ih
    refine ⟨k + 1, ?_⟩
    rw [collectFrom]
    simp only [dif_neg h, dif_neg h2]
    rw [hk]
    rw [show flattenPages pages i (k + 1) = pages i ++ flattenPages pages (i + 1) k from rfl]
    rw [collectPass_append]

theorem newFirstSeen_spec (l : List String) (seen : List String) :
    (∀ x ∈ newFirstSeen seen l, x ∉ seen) ∧ (newFirstSeen seen l).Nodup := by
  induction l generalizing seen with
  | nil => simp [newFirstSeen]
  | cons u rest ih =>
    by_cases hc : canonicalize u ∈ seen
    · simpa [newFirstSeen, hc] using ih seen
    · have h1 := ih (seen ++ [canonicalize u])
      have hns : newFirstSeen seen (u :: rest)
          = canonicalize u :: newFirstSeen (seen ++ [canonicalize u]) rest := by
        simp [newFirstSeen, hc]
      rw [hns]
      constructor
      · intro x hx
        rcases List.mem_cons.mp hx with hx | hx
        · rw [hx]; exact hc
        · have := h1.1 x hx
          simp only [List.mem_append, List.mem_singleton] at this
          intro hxs
          exact this (Or.inl hxs)
      · refine List.nodup_cons.mpr ⟨?_, h1.2⟩
        intro hmem
        have := h1.1 _ hmem
        simp at this

theorem collectPass_eq_take (N : Nat) (l : List String) (acc : List String) :
    collectPass N acc l = acc ++ (newFirstSeen acc l).take (N - acc.length) := by
  induction l generalizing acc with
  | nil => simp [collectPass, newFirstSeen]
  | cons u rest ih =>
    by_cases h1 : N ≤ acc.length
    · rw [collectPass_of_length_ge N acc _ h1]
      have hz : N - acc.length = 0 := by omega
      simp [hz]
    · have hc : collectPass N acc (u :: rest) = collectPass N (addUrl N acc u) rest := rfl
      by_cases hmem : canonicalize u ∈ acc
      · have ha : addUrl N acc u = acc := by unfold addUrl; simp [h1, hmem]
        have hns : newFirstSeen acc (u :: rest) = newFirstSeen acc rest := by
          simp [newFirstSeen, hmem]
        rw [hc, ha, ih acc, hns]
      · have ha : addUrl N acc u = acc ++ [canonicalize u] := by
          unfold addUrl; simp [h1, hmem]
        have hns : newFirstSeen acc (u :: rest)
            = canonicalize u :: newFirstSeen (acc ++ [canonicalize u]) rest := by
          simp [newFirstSeen, hmem]
        rw [hc, ha, ih (acc ++ [canonicalize u]), hns]
        have h3 : N - acc.length = (N - (acc.length + 1)) + 1 := by omega
        rw [h3, List.take_succ_cons]
        simp

/-! ## Hiring Classifier (modelled from the spec) -/

/-- Modelled from the spec: a Post Record produced by the Post Extractor.
Engagement counts "may be absent if not rendered". A record the extractor
could not load is tagged `unavailable`. -/
structure PostRecord where
  author : String
  headline : String
  text : String
  timestamp : String
  engagement : Option Nat
  url : String
  unavailable : Bool
deriving Repr, DecidableEq

/-- Modelled from the spec: a Post Record tagged as hiring / not-hiring,
with the matched phrase(s) retained for auditability. -/
structure ClassificationResult where
  record : PostRecord
  hiring : Bool
  matched : List String
deriving Repr, DecidableEq

/-- Whether the character list `p` matches at the head of `t`. -/
def charsMatchAt : List Char → List Char → Bool
  | _, [] => true
  | [], _ :: _ => false
  | a :: as, b :: bs => a == b && charsMatchAt as bs

/-- Whether `p` occurs as a contiguous run somewhere in `t`. -/
def charsContain (t p : List Char) : Bool :=
  match t with
  | [] => p.isEmpty
  | _ :: rest => charsMatchAt t p || charsContain rest p

/-- Substring containment on strings, the matching rule of the classifier. -/
def containsSub (t p : String) : Bool :=
  charsContain t.toList p.toList

/-- Modelled from the spec: the Hiring Classifier `classify(record)`.
An `Unavailable` record is not-hiring by definition. Otherwise the post
text is normalized (case-folded) and the record is hiring when it contains
a configured keyword phrase, or a configured job-title phrase combined
with a hiring-intent cue (a keyword); matched phrases are retained. -/
def classify (keywords jobTitles : List String) (r : PostRecord) : ClassificationResult :=
  if r.unavailable then { record := r, hiring := false, matched := [] }
  else
    let t := r.text.toLower
    let matchedKeywords := keywords.filter (fun k => containsSub t k.toLower)
    let matchedTitles := jobTitles.filter (fun j => containsSub t j.toLower)
    { record := r
      hiring := !matchedKeywords.isEmpty || (!matchedTitles.isEmpty && !matchedKeywords.isEmpty)
      matched := matchedKeywords ++ matchedTitles }

/-! ## Claims -/

/-- Claim C1, counterexample: a `KeyboardInterrupt` raised mid-extraction
(search succeeded with one URL, scraping interrupted) does NOT invoke
`save_session` before the process exits, contradicting the claim. -/
theorem c1_counterexample :
    (runTryBlock (.ok ["https://www.linkedin.com/posts/p1"]) .keyboardInterrupt).saveSessionCalled
      = false := rfl

/-- Claim C1, amended: a user interrupt after browsing has begun does not
invoke `save_session`; the `except KeyboardInterrupt` handler only prints a
warning, the context is closed, and the process exits with status 0.
`save_session` runs only when search and extraction both complete. -/
theorem c1_amended_interrupt_no_save (r : StepResult Unit) (u : String) (us : List String) :
    (runTryBlock .keyboardInterrupt r).saveSessionCalled = false
    ∧ runTryBlock (.ok (u :: us)) .keyboardInterrupt
        = { saveSessionCalled := false, errorReported := true, exit := .caughtInterrupt }
    ∧ exitCodeOfTry (runTryBlock (.ok (u :: us)) .keyboardInterrupt).exit = 0
    ∧ (runTryBlock (.ok (u :: us)) (.ok ())).saveSessionCalled = true := by
  refine ⟨rfl, ?_, ?_, ?_⟩ <;> simp [runTryBlock, exitCodeOfTry]

/-- Claim C2, counterexample: a session-level exception (`AuthFailed`)
raised after browsing has begun is swallowed by `except Exception` and the
process exits with status 0, not a non-zero status. -/
theorem c2_counterexample :
    exitCodeOfTry (runTryBlock (.exc "AuthFailed") (.ok ())).exit = 0 := rfl

/-- Claim C2, amended: for every fatal exception raised after browsing has
begun, the run reports the failure (prints the error and a traceback) but
the exception is caught and swallowed, so the process exits with status 0;
only the empty-result `sys.exit(1)` produces a non-zero status. -/
theorem c2_amended_exception_swallowed (m : String) (r : StepResult Unit)
    (u : String) (us : List String) :
    ((runTryBlock (.exc m) r).errorReported = true
      ∧ exitCodeOfTry (runTryBlock (.exc m) r).exit = 0)
    ∧ ((runTryBlock (.ok (u :: us)) (.exc m)).errorReported = true
      ∧ exitCodeOfTry (runTryBlock (.ok (u :: us)) (.exc m)).exit = 0) := by
  refine ⟨⟨rfl, rfl⟩, ?_, ?_⟩ <;> simp [runTryBlock, exitCodeOfTry]

/-- Claim C3: when the selected country profile's email or password
environment variable is unset or empty, the run fails before any browser is
launched and exits with status 1. -/
theorem c3_missing_credentials_no_browser (fc : Option FileConfig) (cliSearch : Option String)
    (env : String → Option String) (profile : CountryProfile)
    (searchRes : StepResult (List String)) (scrapeRes : StepResult Unit)
    (h : credMissing (env profile.email_env) = true
      ∨ credMissing (env profile.password_env) = true) :
    (runMain fc cliSearch env profile searchRes scrapeRes).browserLaunched = false
    ∧ (runMain fc cliSearch env profile searchRes scrapeRes).exitCode = 1 := by
  have hpre : ∃ e, mainPreBrowse fc cliSearch env profile = .error e := by
    cases hq : buildSearchQuery cliSearch (load_config fc) with
    | error u => exact ⟨.indexError, by unfold mainPreBrowse; rw [hq]⟩
    | ok q =>
      have hcm : (credMissing (env profile.email_env)
          || credMissing (env profile.password_env)) = true := by
        rcases h with h | h <;> simp [h]
      exact ⟨.missingCredentials, by unfold mainPreBrowse; rw [hq]; simp [hcm]⟩
  obtain ⟨e, he⟩ := hpre
  unfold runMain
  rw [he]
  exact ⟨rfl, rfl⟩

/-- Witness for C3: with every environment variable unset, the run of
`main` launches no browser and exits with status 1. -/
theorem c3_witness :
    (credMissing ((fun _ => (none : Option String)) india.email_env) = true
      ∨ credMissing ((fun _ => (none : Option String)) india.password_env) = true)
    ∧ (runMain none (some "backend developer hiring") (fun _ => none) india
        (.ok []) (.ok ())).browserLaunched = false
    ∧ (runMain none (some "backend developer hiring") (fun _ => none) india
        (.ok []) (.ok ())).exitCode = 1 :=
  ⟨Or.inl (by decide),
    c3_missing_credentials_no_browser none (some "backend developer hiring")
      (fun _ => none) india (.ok []) (.ok ()) (Or.inl (by decide))⟩

/-- Claim C4: for every page stream and every `max_results = N ≥ 1`, the
Candidate URL Set returned by the Search Collector has length at most `N`,
contains no duplicate canonical URLs, and is the `N`-capped sequence of
first occurrences of the canonical URLs in discovery order over the
extraction passes it inspected. -/
theorem c4_collector_dedup_capped_ordered (pages : Nat → List String) (N : Nat)
    (hN : 1 ≤ N) :
    (collect pages N).length ≤ N
    ∧ (collect pages N).Nodup
    ∧ ∃ k, collect pages N = (newFirstSeen [] (flattenPages pages 0 k)).take N := by
  obtain ⟨k, hk⟩ := collectFrom_flatten pages N 0 [] 0
  have hflat : collect pages N = (newFirstSeen [] (flattenPages pages 0 k)).take N := by
    rw [collect, hk, collectPass_eq_take]
    simp
  refine ⟨?_, ?_, ⟨k, hflat⟩⟩
  · rw [hflat, List.length_take]
    omega
  · rw [hflat]
    exact List.Nodup.sublist (List.take_sublist _ _)
      (newFirstSeen_spec (flattenPages pages 0 k) []).2

/-- Witness for C4: the bound, dedup and order properties at a concrete
page stream and `N = 2`. -/
theorem c4_witness :
    1 ≤ 2
    ∧ ((collect (fun _ => ["p?x", "p?y", "q"]) 2).length ≤ 2
      ∧ (collect (fun _ => ["p?x", "p?y", "q"]) 2).Nodup
      ∧ ∃ k, collect (fun _ => ["p?x", "p?y", "q"]) 2
          = (newFirstSeen [] (flattenPages (fun _ => ["p?x", "p?y", "q"]) 0 k)).take 2) :=
  ⟨by decide, c4_collector_dedup_capped_ordered (fun _ => ["p?x", "p?y", "q"]) 2 (by decide)⟩

/-- Claim C5, counterexample: when the Search Collector returns an empty
list, `main` treats it as fatal — it prints an error and the `sys.exit(1)`
propagates, so the process exits with status 1. -/
theorem c5_counterexample :
    (runTryBlock (.ok []) (.ok ())).exit = .sysExit 1
    ∧ exitCodeOfTry (runTryBlock (.ok []) (.ok ())).exit = 1 := ⟨rfl, rfl⟩

/-- Claim C5, amended: the Search Collector can legitimately return an
empty set without raising, but `main` does treat the empty result as a
fatal condition: it prints "No LinkedIn post URLs found" and exits with
status 1 without scraping and without calling `save_session`. -/
theorem c5_amended_empty_results_fatal (r : StepResult Unit) (N : Nat) :
    collect (fun _ => []) N = []
    ∧ runTryBlock (.ok []) r
        = { saveSessionCalled := false, errorReported := true, exit := .sysExit 1 }
    ∧ exitCodeOfTry (runTryBlock (.ok []) r).exit = 1 := by
  refine ⟨?_, rfl, rfl⟩
  obtain ⟨k, hk⟩ := collectFrom_flatten (fun _ => []) N 0 [] 0
  rw [collect, hk, flattenPages_nil k 0]
  rfl

/-- Claim C6: the collection loop stops when `max_results` is reached, and
two consecutive passes that discover zero new URLs end the loop even when
`max_results` has not been reached (stagnation guard); the loop is a total
function, so it terminates on every input. -/
theorem c6_stagnation_terminates (pages : Nat → List String) (N i : Nat) (acc : List String)
    (hlt : acc.length < N)
    (h1 : collectPass N acc (pages i) = acc)
    (h2 : collectPass N acc (pages (i + 1)) = acc) :
    collectFrom pages N i acc 0 = acc := by
  have hn : ¬ N ≤ acc.length := Nat.not_le_of_lt hlt
  rw [collectFrom]
  rw [dif_neg hn, dif_pos (by rw [h1]), if_neg (by omega : ¬ (0 + 1 ≥ 2))]
  rw [collectFrom]
  rw [dif_neg hn, dif_pos (by rw [h2]), if_pos (by omega : 1 + 1 ≥ 2)]

/-- Witness for C6: with every pass rendering only the already-collected
URL, the loop returns after two stagnant passes with the set unchanged,
although `max_results = 3` was never reached. -/
theorem c6_witness :
    (["a"] : List String).length < 3
    ∧ collectPass 3 ["a"] ((fun _ => ["a"]) 0) = ["a"]
    ∧ collectPass 3 ["a"] ((fun _ => ["a"]) 1) = ["a"]
    ∧ collectFrom (fun _ => ["a"]) 3 0 ["a"] 0 = ["a"] :=
  ⟨by decide, by decide, by decide,
    c6_stagnation_terminates (fun _ => ["a"]) 3 0 ["a"] (by decide) (by decide) (by decide)⟩

/-- Claim C7: an `Unavailable` record is classified not-hiring with no
matched phrases, whatever the configured keyword and job-title sets are;
`classify` is a total function, so it never raises. -/
theorem c7_unavailable_not_hiring (keywords jobTitles : List String) (r : PostRecord)
    (h : r.unavailable = true) :
    (classify keywords jobTitles r).hiring = false
    ∧ (classify keywords jobTitles r).matched = [] := by
  simp [classify, h]

/-- Witness for C7: a concrete unavailable record whose text contains a
hiring keyword is still classified not-hiring. -/
theorem c7_witness :
    ({ author := "a", headline := "h", text := "We are hiring", timestamp := "t",
        engagement := none, url := "u", unavailable := true } : PostRecord).unavailable = true
    ∧ (classify ["hiring", "we are hiring", "looking for", "job opening"]
        ["mobile developer", "app developer"]
        { author := "a", headline := "h", text := "We are hiring", timestamp := "t",
          engagement := none, url := "u", unavailable := true }).hiring = false
    ∧ (classify ["hiring", "we are hiring", "looking for", "job opening"]
        ["mobile developer", "app developer"]
        { author := "a", headline := "h", text := "We are hiring", timestamp := "t",
          engagement := none, url := "u", unavailable := true }).matched = [] :=
  ⟨rfl,
    c7_unavailable_not_hiring ["hiring", "we are hiring", "looking for", "job opening"]
      ["mobile developer", "app developer"]
      { author := "a", headline := "h", text := "We are hiring", timestamp := "t",
        engagement := none, url := "u", unavailable := true } rfl⟩

/-- Claim C8: `classify` is a pure, deterministic function — two
invocations on the same record give the same result; it leaves the record
unchanged, so reclassifying the record of a result reproduces the result
(idempotence). Side effects and navigation are impossible for it by
construction (it is a total function of its arguments alone). -/
theorem c8_classify_deterministic_idempotent (keywords jobTitles : List String)
    (r : PostRecord) :
    classify keywords jobTitles r = classify keywords jobTitles r
    ∧ (classify keywords jobTitles r).record = r
    ∧ classify keywords jobTitles ((classify keywords jobTitles r).record)
        = classify keywords jobTitles r := by
  have hrec : (classify keywords jobTitles r).record = r := by
    unfold classify
    split <;> rfl
  exact ⟨rfl, hrec, by rw [hrec]⟩

/-- Claim C9: with `--max-results` omitted, argparse's default 50 is truthy
and overrides any `config.json` value; with an explicit `--max-results 0`,
the falsy zero is discarded and the config value is used; and a value below
the documented `cap ≥ 1` bound (e.g. `-3`) is accepted unvalidated. -/
theorem c9_max_results_cli_semantics :
    (∀ fc, mainMaxResults fc none = 50)
    ∧ (∀ fc, mainMaxResults fc (some 0) = (load_config fc).max_results)
    ∧ mainMaxResults (some { max_results := some 7 }) (some 0) = 7
    ∧ mainMaxResults none (some (-3)) = -3 := by
  refine ⟨?_, ?_, by decide, by decide⟩
  · intro fc
    simp [mainMaxResults, applyCliMaxResults]
  · intro fc
    simp [mainMaxResults, applyCliMaxResults]

/-- Claim C10: without `--search`, an empty `job_titles` or
`search_keywords` list in the loaded configuration makes `main` fail with
an `IndexError` while building the default query — before the credential
check (the error is `indexError` for every environment) and before any
browser is launched. -/
theorem c10_empty_config_index_error (fc : FileConfig) (env : String → Option String)
    (profile : CountryProfile) (searchRes : StepResult (List String))
    (scrapeRes : StepResult Unit)
    (h : (load_config (some fc)).job_titles = [] ∨ (load_config (some fc)).search_keywords = []) :
    mainPreBrowse (some fc) none env profile = .error .indexError
    ∧ (runMain (some fc) none env profile searchRes scrapeRes).browserLaunched = false
    ∧ (runMain (some fc) none env profile searchRes scrapeRes).exitCode = 1 := by
  have hq : buildSearchQuery none (load_config (some fc)) = .error () := by
    have hemp : ("" : String).isEmpty = true := rfl
    unfold buildSearchQuery
    rcases h with h | h
    · simp [hemp, h]
    · cases hjt : (load_config (some fc)).job_titles with
      | nil => simp [hemp, hjt]
      | cons a l => simp [hemp, hjt, h]
  have hpre : mainPreBrowse (some fc) none env profile = .error .indexError := by
    unfold mainPreBrowse
    rw [hq]
  refine ⟨hpre, ?_, ?_⟩ <;> (unfold runMain; rw [hpre])

/-- Witness for C10: `config.json` overriding `job_titles` with `[]` makes
the run fail before the credential check even though both credentials are
set, and no browser is launched. -/
theorem c10_witness :
    ((load_config (some { job_titles := some [] })).job_titles = []
      ∨ (load_config (some { job_titles := some [] })).search_keywords = [])
    ∧ mainPreBrowse (some { job_titles := some [] }) none (fun _ => some "x") india
        = .error .indexError
    ∧ (runMain (some { job_titles := some [] }) none (fun _ => some "x") india
        (.ok []) (.ok ())).browserLaunched = false
    ∧ (runMain (some { job_titles := some [] }) none (fun _ => some "x") india
        (.ok []) (.ok ())).exitCode = 1 :=
  ⟨Or.inl (by decide),
    c10_empty_config_index_error { job_titles := some [] } (fun _ => some "x") india
      (.ok []) (.ok ()) (Or.inl (by decide))⟩

end LinkedinLeads
